import Mathlib

/-!
Shallow embedding of the storage lifecycle engine of the dropit file-drop
service, covering the metadata rows, the blob directory, the post-fetch
download accounting (`file_downloaded` in src/download/mod.rs), the revoke
path (`process_revoke` in src/update/revoke.rs), the downloads-counter
change (`process_downloads` in src/update/downloads.rs) and the long-alias
rotation (`process_change` in src/update/alias/long.rs).

The SQLite metadata store is modelled as a list of rows, the upload
directory as the list of blob ids present on disk.  The SQL statements
referenced through `include_query!` (`get_file_downloads`, `delete_file`,
`update_file_downloads`, `update_file_long_alias`) are embedded as the
corresponding row operations.  Database I/O errors are not modelled (the
store always answers); filesystem `remove_file` fails exactly when the
blob is absent, mirroring the only failure the model can express.

Concurrency: main.rs builds the SQLite pool with `max_connections(1)` and
every read-decide-mutate sequence holds the single pooled connection for
its whole duration, so concurrent calls execute in some sequential order;
the model therefore studies sequential compositions of the operations.
-/

deriving instance DecidableEq for Except

/-- One metadata row of the `files` table (spec §3, UploadRecord). -/
structure FileRecord where
  id : String
  shortAlias : String
  longAlias : String
  origin : String
  size : Nat
  createdAt : Nat
  expiresAt : Nat
  adminToken : String
  /-- `downloads_remaining`: `none` is SQL NULL (unlimited). In the code a
  SQLite nullable column read as `Option<u16>`. -/
  downloads : Option Nat
deriving Repr, DecidableEq

/-- The shared state: metadata rows plus the ids whose blob file exists. -/
structure Store where
  rows : List FileRecord
  blobs : List String
deriving Repr, DecidableEq

/-- Row lookup by id (first row whose `id` column matches). -/
def getRow (st : Store) (id : String) : Option FileRecord :=
  st.rows.find? (fun r => r.id == id)

/-- `get_file_downloads` query: SELECT downloads FROM files WHERE id = ?. -/
def get_file_downloads (st : Store) (id : String) : Option (Option Nat) :=
  (getRow st id).map (fun r => r.downloads)

/-- `delete_file` query: DELETE FROM files WHERE id = ?. -/
def delete_file (st : Store) (id : String) : Store :=
  { st with rows := st.rows.filter (fun r => !(r.id == id)) }

/-- `update_file_downloads` query: UPDATE files SET downloads = ? WHERE id = ?. -/
def update_file_downloads (st : Store) (id : String) (v : Option Nat) : Store :=
  { st with rows :=
      st.rows.map (fun r => if r.id == id then { r with downloads := v } else r) }

/-- `update_file_long_alias` query: UPDATE files SET long_alias = ? WHERE
id = ?, returning the updated store and `rows_affected()`. -/
def update_file_long_alias (st : Store) (id a : String) : Store × Nat :=
  ({ st with rows :=
      st.rows.map (fun r => if r.id == id then { r with longAlias := a } else r) },
   (st.rows.filter (fun r => r.id == id)).length)

/-- `tokio::fs::remove_file(dir.file_path(id))`: deleting the blob file
succeeds exactly when it is present, else errors (NotFound). -/
def remove_file (st : Store) (id : String) : Option Store :=
  if st.blobs.contains id then
    some { st with blobs := st.blobs.filter (fun b => !(b == id)) }
  else
    none

/-- Primitive store events, used to observe the order of the deletion
steps inside a reclaim. -/
inductive Ev
  | readDownloads (id : String)
  | blobDelete (id : String) (ok : Bool)
  | rowDelete (id : String)
  | rowUpdate (id : String)
deriving Repr, DecidableEq

/-- The distinct failure cases of `file_downloaded` (in the code each is a
distinct formatted `String`; the constructors name the messages). -/
inductive FdError
  | notFound
  | zeroCounter
  | blobDeleteFailed
deriving Repr, DecidableEq

/-- Outcome of `file_downloaded`: its `Result`, the state it leaves behind,
and the trace of store events it issued. -/
structure FdOut where
  res : Except FdError Unit
  st : Store
  evs : List Ev
deriving Repr, DecidableEq

/-- `file_downloaded` (src/download/mod.rs, lines 41-69): read the row's
`downloads` column; NULL means no mutation; 0 is an internal error;
1 deletes the blob then the row; `count >= 2` stores `count - 1`. -/
def file_downloaded (st : Store) (id : String) : FdOut :=
  match get_file_downloads st id with
  | none => ⟨.error .notFound, st, [.readDownloads id]⟩
  | some none => ⟨.ok (), st, [.readDownloads id]⟩
  | some (some 0) => ⟨.error .zeroCounter, st, [.readDownloads id]⟩
  | some (some 1) =>
    match remove_file st id with
    | none => ⟨.error .blobDeleteFailed, st, [.readDownloads id, .blobDelete id false]⟩
    | some st1 => ⟨.ok (), delete_file st1 id,
        [.readDownloads id, .blobDelete id true, .rowDelete id]⟩
  | some (some (n+2)) =>
    ⟨.ok (), update_file_downloads st id (some (n+1)),
      [.readDownloads id, .rowUpdate id]⟩

/-- The failure cases of the administrative update handlers
(src/error, mapped from `RevokeError`, `DownloadsError`, `AliasError`). -/
inductive UpdError
  | recordNotFound
  | unauthorized
  | removeFile
  | partialRemove
  | aliasGeneration
  | unexpectedFileModification
deriving Repr, DecidableEq

/-- Modelled from the spec: `super::authorize` lives in src/update/mod.rs,
which is not among the provided sources.  Per spec §3 (`admin_token`:
opaque secret required to authorize mutation of this record) and §7
(`RecordNotFound` for a missing record, `Unauthorized` for a wrong admin
token), it resolves the alias to a row and checks the caller's token,
returning the row's `(id, size)` on success and mutating nothing. -/
def authorize (st : Store) (al admin_token : String) :
    Except UpdError (String × Nat) :=
  match st.rows.find? (fun r => r.shortAlias == al || r.longAlias == al) with
  | none => .error .recordNotFound
  | some r =>
    if r.adminToken == admin_token then .ok (r.id, r.size)
    else .error .unauthorized

/-- Outcome of `process_revoke`: result, final state, event trace. -/
structure RvOut where
  res : Except UpdError Unit
  st : Store
  evs : List Ev
deriving Repr, DecidableEq

/-- `process_revoke` (src/update/revoke.rs, lines 35-53): authorize, then
delete the blob (`RemoveFile` error aborts), then delete the row
(`PartialRemove` error on database failure, not expressible here since the
modelled store does not fail). -/
def process_revoke (st : Store) (al admin_token : String) : RvOut :=
  match authorize st al admin_token with
  | .error e => ⟨.error e, st, []⟩
  | .ok (id, _) =>
    match remove_file st id with
    | none => ⟨.error .removeFile, st, [.blobDelete id false]⟩
    | some st1 => ⟨.ok (), delete_file st1 id, [.blobDelete id true, .rowDelete id]⟩

/-- Outcome of `process_downloads`: result and final state. -/
structure DlOut where
  res : Except UpdError Unit
  st : Store
deriving Repr, DecidableEq

/-- `process_downloads` (src/update/downloads.rs, lines 25-42): authorize,
then store `Some(count)` when `count >= 1` and NULL otherwise. -/
def process_downloads (st : Store) (al admin_token : String) (count : Nat) : DlOut :=
  match authorize st al admin_token with
  | .error e => ⟨.error e, st⟩
  | .ok (id, _) =>
    ⟨.ok (), update_file_downloads st id (if count ≥ 1 then some count else none)⟩

/-- Modelled from the spec: `alias::random_unused_long` lives in
src/alias/mod.rs, which is not among the provided sources.  Per spec §4.2
it generates random candidates up to a bounded attempt count and returns
the first one unused among live records (long aliases are their own
namespace), or nothing when the attempts are exhausted.  The bounded
random candidate stream is passed in as the list `cands`. -/
def random_unused_long (st : Store) (cands : List String) : Option String :=
  cands.find? (fun c => !(st.rows.any (fun r => r.longAlias == c)))

/-- Outcome of `process_change`: result (the new long alias) and state. -/
structure ChOut where
  res : Except UpdError String
  st : Store
deriving Repr, DecidableEq

/-- `process_change` (src/update/alias/long.rs, lines 72-95): authorize,
generate an unused long alias (`AliasGeneration` error when exhausted),
then UPDATE the row's long alias; `rows_affected != 1` is an
`UnexpectedFileModification` error. -/
def process_change (st : Store) (al admin_token : String) (cands : List String) :
    ChOut :=
  match authorize st al admin_token with
  | .error e => ⟨.error e, st⟩
  | .ok (id, _) =>
    match random_unused_long st cands with
    | none => ⟨.error .aliasGeneration, st⟩
    | some a =>
      match update_file_long_alias st id a with
      | (st1, affected) =>
        if affected ≠ 1 then ⟨.error .unexpectedFileModification, st1⟩
        else ⟨.ok a, st1⟩

/-- Whether an `Except` is a success, for counting successful calls. -/
def exOk {ε α : Type} : Except ε α → Bool
  | .ok _ => true
  | .error _ => false

/-- Run `file_downloaded` sequentially `m` times on the same id (the shape
every concurrent execution reduces to, since each call holds the single
pooled connection end to end), returning the final store, the number of
successful calls, and the number of reclaims (row-deletion events). -/
def runN (st : Store) (id : String) : Nat → Store × Nat × Nat
  | 0 => (st, 0, 0)
  | m+1 =>
    ((runN (file_downloaded st id).st id m).1,
     (if exOk (file_downloaded st id).res then 1 else 0)
       + (runN (file_downloaded st id).st id m).2.1,
     (if Ev.rowDelete id ∈ (file_downloaded st id).evs then 1 else 0)
       + (runN (file_downloaded st id).st id m).2.2)

/-- Checker for the reclaim ordering discipline on a trace, for a given
id: every `rowDelete id` occurs immediately after a successful
`blobDelete id`, and every successful `blobDelete id` is immediately
followed by `rowDelete id` (the row deletion is issued right away, with no
intervening step, and never before or without the blob deletion). -/
def goodReclaimTrace (q : String) : List Ev → Bool
  | [] => true
  | .blobDelete i true :: rest =>
    if i == q then
      match rest with
      | .rowDelete j :: rest2 => j == q && goodReclaimTrace q rest2
      | _ => false
    else goodReclaimTrace q rest
  | .rowDelete i :: rest => !(i == q) && goodReclaimTrace q rest
  | _ :: rest => goodReclaimTrace q rest

example : goodReclaimTrace "a" [.readDownloads "a", .blobDelete "a" true, .rowDelete "a"] = true := by decide

example : goodReclaimTrace "a" [.rowDelete "a", .blobDelete "a" true] = false := by decide

/-- A store whose rows carry pairwise distinct ids (the `files` table's
primary key constraint). -/
def idsNodup (st : Store) : Prop :=
  (st.rows.map (fun r => r.id)).Nodup

instance (st : Store) : Decidable (idsNodup st) := by
  unfold idsNodup
  infer_instance

/-! ### Helper lemmas about the row-level operations -/

theorem find?_map_downloads (rows : List FileRecord) (id : String) (v : Option Nat) :
    (rows.map (fun r => if r.id == id then { r with downloads := v } else r)).find?
        (fun r => r.id == id)
      = (rows.find? (fun r => r.id == id)).map (fun r => { r with downloads := v }) := by
  induction rows with
  | nil => rfl
  | cons r rs ih =>
    rw [List.map_cons]
    by_cases h : r.id = id
    · rw [if_pos (by simpa using h)]
      rw [List.find?_cons_of_pos _ (by simpa using h),
        List.find?_cons_of_pos (p := fun x => x.id == id) rs (by simpa using h)]
      rfl
    · rw [if_neg (by simpa using h)]
      rw [List.find?_cons_of_neg _ (by simpa using h),
        List.find?_cons_of_neg (p := fun x => x.id == id) rs (by simpa using h)]
      exact ih

theorem find?_map_longAlias (rows : List FileRecord) (id a : String) :
    (rows.map (fun r => if r.id == id then { r with longAlias := a } else r)).find?
        (fun r => r.id == id)
      = (rows.find? (fun r => r.id == id)).map (fun r => { r with longAlias := a }) := by
  induction rows with
  | nil => rfl
  | cons r rs ih =>
    rw [List.map_cons]
    by_cases h : r.id = id
    · rw [if_pos (by simpa using h)]
      rw [List.find?_cons_of_pos _ (by simpa using h),
        List.find?_cons_of_pos (p := fun x => x.id == id) rs (by simpa using h)]
      rfl
    · rw [if_neg (by simpa using h)]
      rw [List.find?_cons_of_neg _ (by simpa using h),
        List.find?_cons_of_neg (p := fun x => x.id == id) rs (by simpa using h)]
      exact ih

theorem getRow_update_downloads (st : Store) (id : String) (v : Option Nat) :
    getRow (update_file_downloads st id v) id
      = (getRow st id).map (fun r => { r with downloads := v }) :=
  find?_map_downloads st.rows id v

theorem getRow_delete (st : Store) (id : String) :
    getRow (delete_file st id) id = none := by
  apply List.find?_eq_none.mpr
  intro r hr
  have h := (List.mem_filter.mp hr).2
  simpa using h

theorem update_downloads_blobs (st : Store) (id : String) (v : Option Nat) :
    (update_file_downloads st id v).blobs = st.blobs := rfl

theorem delete_file_blobs (st : Store) (id : String) :
    (delete_file st id).blobs = st.blobs := rfl

theorem update_downloads_length (st : Store) (id : String) (v : Option Nat) :
    (update_file_downloads st id v).rows.length = st.rows.length := by
  simp [update_file_downloads]

theorem remove_file_present (st : Store) (id : String) (h : id ∈ st.blobs) :
    remove_file st id
      = some { st with blobs := st.blobs.filter (fun b => !(b == id)) } := by
  simp [remove_file, h]

theorem remove_file_absent (st : Store) (id : String) (h : id ∉ st.blobs) :
    remove_file st id = none := by
  simp [remove_file, h]

theorem not_mem_filter_self (l : List String) (id : String) :
    id ∉ l.filter (fun b => !(b == id)) := by
  intro h
  have := (List.mem_filter.mp h).2
  simp at this

theorem authorize_ok_inv (st : Store) (al tok id : String) (sz : Nat)
    (h : authorize st al tok = .ok (id, sz)) :
    ∃ r, st.rows.find? (fun r => r.shortAlias == al || r.longAlias == al) = some r ∧
      r ∈ st.rows ∧ r.id = id ∧ r.adminToken = tok ∧ r.size = sz := by
  unfold authorize at h
  cases hf : st.rows.find? (fun r => r.shortAlias == al || r.longAlias == al) with
  | none => rw [hf] at h; cases h
  | some r =>
    rw [hf] at h
    have h2 : (if (r.adminToken == tok) = true then (Except.ok (r.id, r.size) : Except UpdError (String × Nat))
        else Except.error UpdError.unauthorized) = Except.ok (id, sz) := h
    by_cases ht : r.adminToken = tok
    · rw [if_pos (by simpa using ht)] at h2
      simp only [Except.ok.injEq, Prod.mk.injEq] at h2
      exact ⟨r, rfl, List.mem_of_find?_eq_some hf, h2.1, ht, h2.2⟩
    · rw [if_neg (by simpa using ht)] at h2
      cases h2

theorem find?_id_of_mem_nodup (rows : List FileRecord) (r : FileRecord)
    (hnd : (rows.map (fun x => x.id)).Nodup) (hr : r ∈ rows) :
    rows.find? (fun x => x.id == r.id) = some r := by
  induction rows with
  | nil => cases hr
  | cons a rs ih =>
    have hnd' := List.nodup_cons.mp hnd
    rcases List.mem_cons.mp hr with h | h
    · subst h
      exact List.find?_cons_of_pos _ (by simp)
    · have hane : ¬ a.id = r.id := by
        intro he
        have hm : r.id ∈ rs.map (fun x => x.id) := by
          simpa using List.mem_map_of_mem (fun x => x.id) h
        rw [← he] at hm
        exact hnd'.1 hm
      rw [List.find?_cons_of_neg (p := fun x => x.id == r.id) rs (by simpa using hane)]
      exact ih hnd'.2 h

theorem filter_id_singleton (rows : List FileRecord) (r : FileRecord)
    (hnd : (rows.map (fun x => x.id)).Nodup) (hr : r ∈ rows) :
    rows.filter (fun x => x.id == r.id) = [r] := by
  induction rows with
  | nil => cases hr
  | cons a rs ih =>
    have hnd' := List.nodup_cons.mp hnd
    rcases List.mem_cons.mp hr with h | h
    · subst h
      have hnil : rs.filter (fun x => x.id == r.id) = [] := by
        apply List.filter_eq_nil_iff.mpr
        intro x hx hb
        have hxr : x.id = r.id := by simpa using hb
        have hm : x.id ∈ rs.map (fun y => y.id) := by
          simpa using List.mem_map_of_mem (fun y => y.id) hx
        rw [hxr] at hm
        exact hnd'.1 hm
      rw [List.filter_cons_of_pos (by simp), hnil]
    · have hane : ¬ a.id = r.id := by
        intro he
        have hm : r.id ∈ rs.map (fun x => x.id) := by
          simpa using List.mem_map_of_mem (fun x => x.id) h
        rw [← he] at hm
        exact hnd'.1 hm
      rw [List.filter_cons_of_neg (by simpa using hane)]
      exact ih hnd'.2 h

/-! ### Branch lemmas for `file_downloaded` -/

theorem fd_of_missing (st : Store) (id : String) (h : getRow st id = none) :
    file_downloaded st id = ⟨.error .notFound, st, [.readDownloads id]⟩ := by
  simp [file_downloaded, get_file_downloads, h]

theorem fd_unlimited (st : Store) (id : String) (r : FileRecord)
    (hrow : getRow st id = some r) (hd : r.downloads = none) :
    file_downloaded st id = ⟨.ok (), st, [.readDownloads id]⟩ := by
  simp [file_downloaded, get_file_downloads, hrow, hd]

theorem fd_zero (st : Store) (id : String) (r : FileRecord)
    (hrow : getRow st id = some r) (hd : r.downloads = some 0) :
    file_downloaded st id = ⟨.error .zeroCounter, st, [.readDownloads id]⟩ := by
  simp [file_downloaded, get_file_downloads, hrow, hd]

theorem fd_decrement (st : Store) (id : String) (r : FileRecord) (n : Nat)
    (hrow : getRow st id = some r) (hd : r.downloads = some (n+2)) :
    file_downloaded st id
      = ⟨.ok (), update_file_downloads st id (some (n+1)),
          [.readDownloads id, .rowUpdate id]⟩ := by
  simp [file_downloaded, get_file_downloads, hrow, hd]

theorem fd_reclaim (st : Store) (id : String) (r : FileRecord)
    (hrow : getRow st id = some r) (hd : r.downloads = some 1)
    (hblob : id ∈ st.blobs) :
    file_downloaded st id
      = ⟨.ok (),
          delete_file { st with blobs := st.blobs.filter (fun b => !(b == id)) } id,
          [.readDownloads id, .blobDelete id true, .rowDelete id]⟩ := by
  simp [file_downloaded, get_file_downloads, hrow, hd, remove_file_present st id hblob]

theorem fd_reclaim_blob_missing (st : Store) (id : String) (r : FileRecord)
    (hrow : getRow st id = some r) (hd : r.downloads = some 1)
    (hblob : id ∉ st.blobs) :
    file_downloaded st id
      = ⟨.error .blobDeleteFailed, st, [.readDownloads id, .blobDelete id false]⟩ := by
  simp [file_downloaded, get_file_downloads, hrow, hd, remove_file_absent st id hblob]

/-! ### Evaluation lemmas for the trace checker -/

theorem good_nil (q : String) : goodReclaimTrace q [] = true := rfl

theorem good_read (q i : String) (rest : List Ev) :
    goodReclaimTrace q (.readDownloads i :: rest) = goodReclaimTrace q rest := rfl

theorem good_rowUpdate (q i : String) (rest : List Ev) :
    goodReclaimTrace q (.rowUpdate i :: rest) = goodReclaimTrace q rest := rfl

theorem good_blobDelete_false (q i : String) (rest : List Ev) :
    goodReclaimTrace q (.blobDelete i false :: rest) = goodReclaimTrace q rest := rfl

theorem good_reclaim_pair (q i : String) :
    goodReclaimTrace q [.blobDelete i true, .rowDelete i] = true := by
  by_cases h : i = q
  · subst h
    simp [goodReclaimTrace]
  · have hb : (i == q) = false := by simpa using h
    simp [goodReclaimTrace, hb]

/-! ### Branch lemmas for `process_revoke` -/

theorem revoke_ok (st : Store) (al tok id : String) (sz : Nat)
    (hauth : authorize st al tok = .ok (id, sz)) (hblob : id ∈ st.blobs) :
    process_revoke st al tok
      = ⟨.ok (),
          delete_file { st with blobs := st.blobs.filter (fun b => !(b == id)) } id,
          [.blobDelete id true, .rowDelete id]⟩ := by
  simp [process_revoke, hauth, remove_file_present st id hblob]

theorem revoke_auth_error (st : Store) (al tok : String) (e : UpdError)
    (hauth : authorize st al tok = .error e) :
    process_revoke st al tok = ⟨.error e, st, []⟩ := by
  simp [process_revoke, hauth]

theorem revoke_blob_missing (st : Store) (al tok id : String) (sz : Nat)
    (hauth : authorize st al tok = .ok (id, sz)) (hblob : id ∉ st.blobs) :
    process_revoke st al tok = ⟨.error .removeFile, st, [.blobDelete id false]⟩ := by
  simp [process_revoke, hauth, remove_file_absent st id hblob]

/-! ### Claims -/

/-- C1: `file_downloaded` follows exactly the case analysis on the
`downloads_remaining` value read from the store: NULL performs no
mutation; a value greater than 1 decrements the stored value by exactly
one and deletes nothing; a value of 1 reclaims the record, deleting both
its blob and its metadata row; a value of 0 surfaces an
internal-consistency error and performs no deletion and no mutation. -/
theorem file_downloaded_case_analysis (st : Store) (id : String) (r : FileRecord)
    (hrow : getRow st id = some r) (hblob : id ∈ st.blobs) :
    (r.downloads = none →
      file_downloaded st id = ⟨.ok (), st, [.readDownloads id]⟩) ∧
    (∀ n, r.downloads = some (n+2) →
      (file_downloaded st id).res = .ok () ∧
      getRow (file_downloaded st id).st id = some { r with downloads := some (n+1) } ∧
      (file_downloaded st id).st.blobs = st.blobs ∧
      (file_downloaded st id).st.rows.length = st.rows.length) ∧
    (r.downloads = some 1 →
      (file_downloaded st id).res = .ok () ∧
      getRow (file_downloaded st id).st id = none ∧
      id ∉ (file_downloaded st id).st.blobs) ∧
    (r.downloads = some 0 →
      file_downloaded st id = ⟨.error .zeroCounter, st, [.readDownloads id]⟩) := by
  refine ⟨fun hd => fd_unlimited st id r hrow hd, fun n hd => ?_, fun hd => ?_,
    fun hd => fd_zero st id r hrow hd⟩
  · rw [fd_decrement st id r n hrow hd]
    dsimp
    refine ⟨rfl, ?_, rfl, update_downloads_length st id _⟩
    rw [getRow_update_downloads, hrow]
    rfl
  · rw [fd_reclaim st id r hrow hd hblob]
    dsimp
    refine ⟨rfl, getRow_delete _ id, ?_⟩
    rw [delete_file_blobs]
    exact not_mem_filter_self st.blobs id

/-- The concrete record used by several witnesses. -/
def rW : FileRecord :=
  { id := "f1", shortAlias := "s1", longAlias := "l1", origin := "ip1", size := 4,
    createdAt := 0, expiresAt := 100, adminToken := "t1", downloads := some 3 }

/-- A concrete store holding `rW` and its blob. -/
def stW : Store := { rows := [rW], blobs := ["f1"] }

/-- Witness for C1: at the concrete store `stW` (counter 3) the
fetch-accounting call succeeds and stores counter 2. -/
theorem file_downloaded_case_analysis_witness :
    (file_downloaded stW "f1").res = .ok () ∧
    getRow (file_downloaded stW "f1").st "f1" = some { rW with downloads := some 2 } := by
  have h := (file_downloaded_case_analysis stW "f1" rW (by decide) (by decide)).2.1 1 rfl
  exact ⟨h.1, h.2.1⟩

/-- C10: accounting a fetch for an id that has no metadata row returns an
error rather than silently succeeding, and mutates nothing: the record's
row must exist at the time of the read. -/
theorem file_downloaded_missing_row_errors (st : Store) (id : String)
    (h : getRow st id = none) :
    file_downloaded st id = ⟨.error .notFound, st, [.readDownloads id]⟩ :=
  fd_of_missing st id h

/-- Witness for C10: on an empty store the accounting call errors. -/
theorem file_downloaded_missing_row_errors_witness :
    file_downloaded { rows := [], blobs := [] } "zz"
      = ⟨.error .notFound, { rows := [], blobs := [] }, [.readDownloads "zz"]⟩ :=
  file_downloaded_missing_row_errors { rows := [], blobs := [] } "zz" (by decide)

/-- Once the record's row is gone, further accounting calls change
nothing and count no success and no reclaim. -/
theorem runN_dead (st : Store) (id : String) (h : getRow st id = none) :
    ∀ m, runN st id m = (st, 0, 0) := by
  intro m
  induction m with
  | zero => rfl
  | succ m ih =>
    simp only [runN, fd_of_missing st id h]
    dsimp [exOk]
    rw [ih]
    simp

/-- C2: with the single `max_connections(1)` SQLite connection held for
the whole read-decide-mutate sequence, concurrent fetch-accounting calls
execute in some sequential order; along any such order on a record whose
`downloads_remaining` is `N > 0`, exactly `min m N` of `m` calls succeed
(so at most `N` succeed before the record is reclaimed) and the reclaim
(the joint blob and row deletion) is performed exactly once as soon as
`m ≥ N`: a second call can never observe the counter at 1 again and
re-attempt reclamation. -/
theorem download_counter_exactly_once_reclaim (st : Store) (id : String)
    (r : FileRecord) (n : Nat)
    (hrow : getRow st id = some r) (hd : r.downloads = some n) (hpos : 0 < n)
    (hblob : id ∈ st.blobs) (m : Nat) :
    (runN st id m).2.1 = min m n ∧
    (runN st id m).2.2 = (if n ≤ m then 1 else 0) := by
  induction m generalizing st r n with
  | zero =>
    refine ⟨by simp [runN], ?_⟩
    rw [if_neg (show ¬ n ≤ 0 by omega)]
    rfl
  | succ m ih =>
    cases n with
    | zero => exact absurd hpos (by simp)
    | succ n1 =>
      cases n1 with
      | zero =>
        have hfd := fd_reclaim st id r hrow hd hblob
        simp only [runN, hfd]
        rw [runN_dead _ id (getRow_delete _ id) m]
        refine ⟨?_, ?_⟩
        · simp [exOk]
        · simp
      | succ n2 =>
        have hfd := fd_decrement st id r n2 hrow hd
        have hrow2 : getRow (update_file_downloads st id (some (n2+1))) id
            = some { r with downloads := some (n2+1) } := by
          rw [getRow_update_downloads, hrow]
          rfl
        have hblob2 : id ∈ (update_file_downloads st id (some (n2+1))).blobs := by
          rw [update_downloads_blobs]
          exact hblob
        obtain ⟨ihs, ihr⟩ := ih (update_file_downloads st id (some (n2+1)))
          { r with downloads := some (n2+1) } (n2+1) hrow2 rfl (by omega) hblob2
        simp only [runN, hfd]
        rw [ihs, ihr]
        refine ⟨?_, ?_⟩
        · simp [exOk]
          omega
        · simp

/-- Witness for C2: on the concrete store `stW` (counter 3), five
sequential accounting calls yield exactly three successes and one
reclaim. -/
theorem download_counter_exactly_once_reclaim_witness :
    (runN stW "f1" 5).2.1 = min 5 3 ∧ (runN stW "f1" 5).2.2 = (if 3 ≤ 5 then 1 else 0) :=
  download_counter_exactly_once_reclaim stW "f1" rW 3 (by decide) rfl (by decide)
    (by decide) 5

/-- C3: in every reclaim path (the counter-exhaustion reclaim inside
`file_downloaded` and the revoke in `process_revoke`), the blob deletion
strictly precedes the metadata-row deletion, and after a successful blob
deletion the row deletion is issued as the immediately following step, so
no step of the reclaim leaves a still-present row whose blob it already
deleted while the row deletion is not the pending next step. -/
theorem reclaim_blob_strictly_before_row (st : Store) (id q al tok : String) :
    goodReclaimTrace q (file_downloaded st id).evs = true ∧
    goodReclaimTrace q (process_revoke st al tok).evs = true := by
  constructor
  · cases hrow : getRow st id with
    | none => rw [fd_of_missing st id hrow]; rfl
    | some r =>
      cases hd : r.downloads with
      | none => rw [fd_unlimited st id r hrow hd]; rfl
      | some k =>
        cases k with
        | zero => rw [fd_zero st id r hrow hd]; rfl
        | succ k1 =>
          cases k1 with
          | zero =>
            by_cases hb : id ∈ st.blobs
            · rw [fd_reclaim st id r hrow hd hb]
              dsimp
              rw [good_read]
              exact good_reclaim_pair q id
            · rw [fd_reclaim_blob_missing st id r hrow hd hb]; rfl
          | succ n => rw [fd_decrement st id r n hrow hd]; rfl
  · unfold process_revoke
    cases ha : authorize st al tok with
    | error e => rfl
    | ok p =>
      obtain ⟨i, sz⟩ := p
      dsimp
      cases hr : remove_file st i with
      | none => rfl
      | some st1 =>
        dsimp
        exact good_reclaim_pair q i

/-- C4: invoking the reclaim a second time on the same record after a
first successful reclaim returns the NotFound outcome and no other error,
and the second invocation performs no deletion: the revoke path answers
`RecordNotFound` and the accounting path answers its missing-row error,
both leaving the store untouched and issuing no deletion event. -/
theorem reclaim_second_invocation_not_found (st : Store) (al tok id : String)
    (sz : Nat)
    (hauth : authorize st al tok = .ok (id, sz))
    (hblob : id ∈ st.blobs)
    (huniq : ∀ r2, r2 ∈ st.rows → (r2.shortAlias = al ∨ r2.longAlias = al) →
      r2.id = id) :
    (process_revoke st al tok).res = .ok () ∧
    process_revoke (process_revoke st al tok).st al tok
      = ⟨.error .recordNotFound, (process_revoke st al tok).st, []⟩ ∧
    file_downloaded (process_revoke st al tok).st id
      = ⟨.error .notFound, (process_revoke st al tok).st, [.readDownloads id]⟩ := by
  rw [revoke_ok st al tok id sz hauth hblob]
  dsimp
  have hnone :
      (delete_file { st with blobs := st.blobs.filter (fun b => !(b == id)) } id).rows.find?
        (fun r => r.shortAlias == al || r.longAlias == al) = none := by
    apply List.find?_eq_none.mpr
    intro r2 hr2 hp
    have hmem := List.mem_filter.mp hr2
    have hor : r2.shortAlias = al ∨ r2.longAlias = al := by simpa using hp
    have hid := huniq r2 hmem.1 hor
    have := hmem.2
    rw [hid] at this
    simp at this
  have hauth2 : authorize
      (delete_file { st with blobs := st.blobs.filter (fun b => !(b == id)) } id) al tok
      = .error .recordNotFound := by
    simp [authorize, hnone]
  exact ⟨rfl, revoke_auth_error _ al tok _ hauth2,
    fd_of_missing _ id (getRow_delete _ id)⟩

/-- Witness for C4: on the concrete store `stW`, a revoke succeeds and the
second revoke of the same record reports `RecordNotFound`. -/
theorem reclaim_second_invocation_not_found_witness :
    process_revoke (process_revoke stW "s1" "t1").st "s1" "t1"
      = ⟨.error .recordNotFound, (process_revoke stW "s1" "t1").st, []⟩ :=
  (reclaim_second_invocation_not_found stW "s1" "t1" "f1" 4 (by decide) (by decide)
    (by decide)).2.1

/-- A record whose blob is missing from the upload directory. -/
def rNB : FileRecord :=
  { id := "f2", shortAlias := "s2", longAlias := "l2", origin := "ip1", size := 7,
    createdAt := 0, expiresAt := 100, adminToken := "t2", downloads := some 1 }

/-- A store where `rNB`'s row is present but its blob is gone. -/
def stNB : Store := { rows := [rNB], blobs := [] }

/-- Counterexample to C5: at `stNB` (row present, blob absent) the blob
deletion fails and both reclaim paths return a fatal blob-removal error
WITHOUT attempting the metadata-row deletion — no `rowDelete` event is
issued and the row is still present afterwards — whereas the claim says
the row deletion is still attempted and the outcome is reported as a
non-fatal partial failure. -/
theorem revoke_blob_failure_counterexample :
    (process_revoke stNB "l2" "t2").res = .error .removeFile ∧
    Ev.rowDelete "f2" ∉ (process_revoke stNB "l2" "t2").evs ∧
    (process_revoke stNB "l2" "t2").st = stNB ∧
    getRow (process_revoke stNB "l2" "t2").st "f2" = some rNB ∧
    (file_downloaded stNB "f2").res = .error .blobDeleteFailed ∧
    Ev.rowDelete "f2" ∉ (file_downloaded stNB "f2").evs ∧
    (file_downloaded stNB "f2").st = stNB := by
  decide

/-- C5 amended: when reclaiming a record and the blob deletion (step 1)
fails, the metadata-row deletion (step 2) is NOT attempted: both reclaim
paths abort with the blob-removal error (`RevokeError::RemoveFile`
respectively the fs-deletion error of `file_downloaded`), leaving the
store — and in particular the metadata row — unchanged; the
`PartialRemove` error is reserved for a row deletion that fails after a
successful blob deletion. -/
theorem reclaim_blob_failure_aborts (st : Store) (al tok id : String) (sz : Nat)
    (hauth : authorize st al tok = .ok (id, sz)) (hblob : id ∉ st.blobs) :
    process_revoke st al tok = ⟨.error .removeFile, st, [.blobDelete id false]⟩ ∧
    ∀ r, getRow st id = some r → r.downloads = some 1 →
      file_downloaded st id
        = ⟨.error .blobDeleteFailed, st, [.readDownloads id, .blobDelete id false]⟩ :=
  ⟨revoke_blob_missing st al tok id sz hauth hblob,
    fun r hrow hd => fd_reclaim_blob_missing st id r hrow hd hblob⟩

/-- Witness for C5's amended statement at the concrete store `stNB`. -/
theorem reclaim_blob_failure_aborts_witness :
    process_revoke stNB "l2" "t2"
      = ⟨.error .removeFile, stNB, [.blobDelete "f2" false]⟩ ∧
    file_downloaded stNB "f2"
      = ⟨.error .blobDeleteFailed, stNB,
          [.readDownloads "f2", .blobDelete "f2" false]⟩ := by
  have h := reclaim_blob_failure_aborts stNB "l2" "t2" "f2" 7 (by decide) (by decide)
  exact ⟨h.1, h.2 rNB (by decide) rfl⟩

/-- C6: every administrative mutation of a record — revoke, long-alias
rotation and downloads-counter change — verifies the caller's admin token
against the record before performing any mutation; when authorization
fails (wrong token or no such record) each handler returns that error and
the store — every row with all its fields, and every blob — is exactly
unchanged. -/
theorem admin_mutations_require_authorization (st : Store) (al tok : String)
    (count : Nat) (cands : List String) (e : UpdError)
    (hauth : authorize st al tok = .error e) :
    process_revoke st al tok = ⟨.error e, st, []⟩ ∧
    process_downloads st al tok count = ⟨.error e, st⟩ ∧
    process_change st al tok cands = ⟨.error e, st⟩ := by
  refine ⟨revoke_auth_error st al tok e hauth, ?_, ?_⟩ <;>
    simp [process_downloads, process_change, hauth]

/-- Witness for C6: a wrong admin token on `stW` leaves the store
unchanged in all three handlers. -/
theorem admin_mutations_require_authorization_witness :
    process_revoke stW "s1" "bad" = ⟨.error .unauthorized, stW, []⟩ ∧
    process_downloads stW "s1" "bad" 5 = ⟨.error .unauthorized, stW⟩ ∧
    process_change stW "s1" "bad" ["x"] = ⟨.error .unauthorized, stW⟩ :=
  admin_mutations_require_authorization stW "s1" "bad" 5 ["x"] .unauthorized
    (by decide)

/-- The store produced by `update_file_long_alias` (its first component). -/
def rotatedStore (st : Store) (id na : String) : Store :=
  (update_file_long_alias st id na).1

/-- C7: a successful long-alias rotation replaces only the record's long
alias with a freshly generated alias unused among live records: the
rotated row keeps its id, short alias, origin, size, creation time,
expiry, admin token and downloads counter; the blob directory is
untouched; every other row is unchanged; no row is deleted. -/
theorem long_alias_rotation_frame (st : Store) (al tok : String)
    (cands : List String) (id na : String) (sz : Nat)
    (hnd : idsNodup st)
    (hauth : authorize st al tok = .ok (id, sz))
    (hgen : random_unused_long st cands = some na) :
    ∃ r, getRow st id = some r ∧
      process_change st al tok cands = ⟨.ok na, rotatedStore st id na⟩ ∧
      getRow (process_change st al tok cands).st id = some { r with longAlias := na } ∧
      (process_change st al tok cands).st.blobs = st.blobs ∧
      (process_change st al tok cands).st.rows.length = st.rows.length ∧
      (∀ r2, r2 ∈ st.rows → r2.id ≠ id →
        r2 ∈ (process_change st al tok cands).st.rows) ∧
      na ∈ cands ∧ (∀ r2, r2 ∈ st.rows → r2.longAlias ≠ na) := by
  obtain ⟨r0, hfind, hmem, hid, htok2, hsz⟩ := authorize_ok_inv st al tok id sz hauth
  have hrow : getRow st id = some r0 := by
    unfold getRow
    rw [← hid]
    exact find?_id_of_mem_nodup st.rows r0 (by exact hnd) hmem
  have haff : (st.rows.filter (fun x => x.id == id)).length = 1 := by
    have hsing := filter_id_singleton st.rows r0 (by exact hnd) hmem
    rw [hid] at hsing
    rw [hsing]
    rfl
  have hpc : process_change st al tok cands = ⟨.ok na, rotatedStore st id na⟩ := by
    simp [process_change, hauth, hgen, update_file_long_alias, haff, rotatedStore]
  have hrows : (rotatedStore st id na).rows
      = st.rows.map (fun r2 => if r2.id == id then { r2 with longAlias := na } else r2) :=
    rfl
  refine ⟨r0, hrow, hpc, ?_, ?_, ?_, ?_, List.mem_of_find?_eq_some hgen, ?_⟩
  · rw [hpc]
    show getRow (rotatedStore st id na) id = some { r0 with longAlias := na }
    unfold getRow
    rw [hrows, find?_map_longAlias st.rows id na,
      show st.rows.find? (fun r => r.id == id) = some r0 from hrow]
    rfl
  · rw [hpc]
    rfl
  · rw [hpc]
    show (rotatedStore st id na).rows.length = st.rows.length
    rw [hrows]
    simp
  · intro r2 h2 hne
    rw [hpc]
    show r2 ∈ (rotatedStore st id na).rows
    rw [hrows]
    have hr2 : (if r2.id == id then { r2 with longAlias := na } else r2) = r2 := by
      rw [if_neg (by simpa using hne)]
    have hm := List.mem_map_of_mem
      (fun r3 => if r3.id == id then { r3 with longAlias := na } else r3) h2
    simpa [hne] using hm
  · intro r2 h2
    have hfound := List.find?_some hgen
    simp at hfound
    intro hla
    exact absurd (hfound r2 h2) (by simp [hla])

/-- Witness for C7: rotating `stW`'s record's long alias to candidate
"x9" keeps every other field and the blob. -/
theorem long_alias_rotation_frame_witness :
    process_change stW "s1" "t1" ["x9"]
      = ⟨.ok "x9", { rows := [{ rW with longAlias := "x9" }], blobs := ["f1"] }⟩ := by
  obtain ⟨r, hrow, hpc, -⟩ := long_alias_rotation_frame stW "s1" "t1" ["x9"] "f1" "x9" 4
    (by decide) (by decide) (by decide)
  rw [hpc]
  rfl

/-- C8: when alias generation exhausts its bounded attempt count (every
candidate in the bounded stream collides with a live record), the
long-alias rotation fails with the caller-visible alias-generation error
and applies no update at all: the store, and hence the record's existing
alias, is unchanged. -/
theorem alias_generation_exhausted_unchanged (st : Store) (al tok id : String)
    (sz : Nat) (cands : List String)
    (hauth : authorize st al tok = .ok (id, sz))
    (hgen : random_unused_long st cands = none) :
    process_change st al tok cands = ⟨.error .aliasGeneration, st⟩ := by
  simp [process_change, hauth, hgen]

/-- Witness for C8: the only candidate "l1" collides with `stW`'s record's
current long alias, so the rotation fails and `stW` is unchanged. -/
theorem alias_generation_exhausted_unchanged_witness :
    process_change stW "s1" "t1" ["l1"] = ⟨.error .aliasGeneration, stW⟩ :=
  alias_generation_exhausted_unchanged stW "s1" "t1" "f1" 4 ["l1"] (by decide) (by decide)

/-- C9: a requested downloads count of 0 is stored as NULL, which
`file_downloaded` treats as unlimited (a later fetch is accounted with no
mutation and no error, rather than the exhausted-counter error), while
any requested count >= 1 is stored exactly as given. -/
theorem downloads_count_zero_stored_null (st : Store) (al tok id : String)
    (sz : Nat) (r : FileRecord) (count : Nat)
    (hauth : authorize st al tok = .ok (id, sz))
    (hrow : getRow st id = some r) :
    (process_downloads st al tok 0 = ⟨.ok (), update_file_downloads st id none⟩ ∧
      getRow (process_downloads st al tok 0).st id = some { r with downloads := none } ∧
      file_downloaded (process_downloads st al tok 0).st id
        = ⟨.ok (), (process_downloads st al tok 0).st,
            [.readDownloads id]⟩) ∧
    (1 ≤ count →
      process_downloads st al tok count
        = ⟨.ok (), update_file_downloads st id (some count)⟩ ∧
      getRow (process_downloads st al tok count).st id
        = some { r with downloads := some count }) := by
  have h0 : process_downloads st al tok 0 = ⟨.ok (), update_file_downloads st id none⟩ := by
    simp [process_downloads, hauth]
  have hg0 : getRow (update_file_downloads st id none) id
      = some { r with downloads := none } := by
    rw [getRow_update_downloads, hrow]
    rfl
  refine ⟨⟨h0, ?_, ?_⟩, fun hc => ?_⟩
  · rw [h0]
    exact hg0
  · rw [h0]
    exact fd_unlimited _ id { r with downloads := none } hg0 rfl
  · have hcnt : process_downloads st al tok count
        = ⟨.ok (), update_file_downloads st id (some count)⟩ := by
      simp [process_downloads, hauth, hc]
    refine ⟨hcnt, ?_⟩
    rw [hcnt]
    rw [show (DlOut.mk (.ok ()) (update_file_downloads st id (some count))).st
        = update_file_downloads st id (some count) from rfl]
    rw [getRow_update_downloads, hrow]
    rfl

/-- Witness for C9: setting the counter of `stW`'s record to 0 stores
NULL and a later fetch is served with no mutation. -/
theorem downloads_count_zero_stored_null_witness :
    getRow (process_downloads stW "s1" "t1" 0).st "f1" = some { rW with downloads := none } ∧
    getRow (process_downloads stW "s1" "t1" 2).st "f1" = some { rW with downloads := some 2 } := by
  have h := downloads_count_zero_stored_null stW "s1" "t1" "f1" 4 rW 2 (by decide)
    (by decide)
  exact ⟨h.1.2.1, (h.2 (by decide)).2⟩
